import Mathlib

/-!
# Verification of the gracegroup orchestration package

Shallow embedding of the Go package `gracegroup` (files `config.go` and the
main package file containing `Group`, `New`, `Add`, `Wait`, `wait`,
`shutdown`).

Modelling decisions:

* Go `error` values are modelled by `Option GoError`; `nil` is `none`.
  `GoError` covers the sentinel values `context.Canceled` and
  `context.DeadlineExceeded`, distinct application errors (`mk tag`),
  wrapping (`fmt.Errorf` with `%w`) and the multi-error produced by
  `errors.Join`.  `GoError.is` models `errors.Is` (unwrap traversal).
* `time.Duration` is `Int` (nanoseconds); `time.Second = 1000000000`.
* Concurrency is replaced by an explicit deterministic schedule: each start
  goroutine is described by its observable behaviour
  (`none` = never returns, `some (t, r)` = returns the error value `r` at
  abstract time `t`), and the caller-supplied context by
  `none` = never canceled / `some (t, c)` = canceled at time `t` with cause
  `c`.  The `select` race in `Group.wait` and the first-error rule of
  `errgroup` are resolved by earliest time; at equal times the internal
  goroutine-error event wins over the parent cancellation, which wins over
  the all-done `cancel(nil)` call (one admissible schedule; in Go the
  erroring goroutine's `errOnce` fires before its `WaitGroup.Done`, so the
  all-done event can never precede an error event).
* Shutdown functions are modelled as functions from the context they
  receive to the error value they return; the shutdown `errgroup` records
  the first non-nil result in completion order, modelled here as
  registration order.
-/

namespace Gracegroup

/-- Go error values (the part of the `error` interface the package uses).
The source calls `errors.Join` only with exactly two arguments, so the
multi-error node is modelled with a one-child and a two-child form (what
`errors.Join` builds from two arguments when one or both are non-nil). -/
inductive GoError where
  /-- `context.Canceled` -/
  | canceled
  /-- `context.DeadlineExceeded` -/
  | deadlineExceeded
  /-- a distinct application error value (`errors.New`), identified by tag -/
  | mk (tag : Nat)
  /-- an error wrapping another one (`fmt.Errorf` with `%w`) -/
  | wrap (e : GoError)
  /-- `errors.Join` of two arguments of which one was nil -/
  | join1 (a : GoError)
  /-- `errors.Join` of two non-nil arguments, in argument order -/
  | join2 (a : GoError) (b : GoError)
deriving DecidableEq

/-- `errors.Is(e, t)`: identity at each node, unwrapping through `wrap` and
through every member of a join node. -/
def GoError.is (e t : GoError) : Bool :=
  decide (e = t) ||
    match e with
    | .wrap e₁ => e₁.is t
    | .join1 a => a.is t
    | .join2 a b => a.is t || b.is t
    | _ => false

/-- `errors.Join(a, b)`: `nil` when both arguments are `nil`, otherwise the
multi-error holding the non-nil arguments in order. -/
def errJoin : Option GoError → Option GoError → Option GoError
  | none, none => none
  | some a, none => some (.join1 a)
  | none, some b => some (.join1 b)
  | some a, some b => some (.join2 a b)

example : errJoin none none = none := by decide
example : errJoin (some (.mk 1)) none = some (.join1 (.mk 1)) := by decide
example : (GoError.join2 (.mk 1) (.mk 2)).is (.mk 2) = true := by decide
example : (GoError.join1 (.mk 1)).is (.mk 2) = false := by decide
example : (GoError.wrap .canceled).is .canceled = true := by decide

/-! ## Configuration (`config.go`) -/

/-- One `time.Second` in nanoseconds (`time.Duration` is modelled as `Int`
nanoseconds). -/
def timeSecond : Int := 1000000000

/-- `var DefaultShutdownTimeout = 5 * time.Second` -/
def DefaultShutdownTimeout : Int := 5 * timeSecond

/-- `type Config struct { ShutdownTimeout time.Duration }` — the single
tunable of the package. -/
structure Config where
  ShutdownTimeout : Int
deriving DecidableEq

/-- `var DefaultConfig = Config{ShutdownTimeout: DefaultShutdownTimeout}` -/
def DefaultConfig : Config := { ShutdownTimeout := DefaultShutdownTimeout }

/-! ## Contexts

Only the aspects of `context.Context` the package manipulates: derivation
from `context.Background()` via `WithCancel` / `WithTimeout`, and the
resulting deadline. -/

/-- A context as a derivation chain from its root. -/
inductive Ctx where
  /-- `context.Background()` -/
  | background
  /-- `context.WithCancel(parent)` -/
  | withCancel (parent : Ctx)
  /-- `context.WithDeadline(parent, d)` (`WithTimeout(parent, t)` is
  `WithDeadline(parent, now + t)`) -/
  | withDeadline (parent : Ctx) (d : Int)
deriving DecidableEq

/-- The effective deadline of a context: a derived context never exceeds its
parent's deadline (Go keeps the earlier of the two). -/
def Ctx.deadline : Ctx → Option Int
  | .background => none
  | .withCancel p => p.deadline
  | .withDeadline p d =>
    match p.deadline with
    | none => some d
    | some d₀ => some (min d₀ d)

/-- The root of a context's derivation chain. -/
def Ctx.root : Ctx → Ctx
  | .background => .background
  | .withCancel p => p.root
  | .withDeadline p _ => p.root

/-! ## Deterministic schedule of the run phase

A start function (`StartFn func() error`) is abstracted by its observable
behaviour: `none` = it never returns; `some (t, r)` = it returns the error
value `r` at abstract time `t`.  The caller-supplied context is abstracted
by `none` = it is never canceled, `some (t, c)` = it is canceled at time `t`
with `context.Cause` equal to `c` (a plain `cancel()` has cause
`GoError.canceled`, a deadline has cause `GoError.deadlineExceeded`). -/

/-- Observable behaviour of one start function. -/
abbrev StartBeh := Option (Nat × Option GoError)

/-- Observable cancellation of the caller-supplied context. -/
abbrev CtxCancel := Option (Nat × GoError)

/-- One step of the scan for the first error event. -/
def errStep (acc : Option (Nat × GoError)) (b : StartBeh) :
    Option (Nat × GoError) :=
  match b with
  | some (t, some e) =>
    match acc with
    | none => some (t, e)
    | some (tb, eb) => if t < tb then some (t, e) else some (tb, eb)
  | _ => acc

/-- The first error event among the start goroutines: `errgroup` records
the error of the first function to return a non-nil error (`errOnce`).
Ties in time are resolved toward the earlier registration index. -/
def firstErrEvent (starts : List StartBeh) : Option (Nat × GoError) :=
  starts.foldl errStep none

/-- One step of the all-returned scan. -/
def allDoneStep (acc : Option Nat) (b : StartBeh) : Option Nat :=
  match acc, b with
  | some m, some (t, _) => some (max m t)
  | _, _ => none

/-- The time at which `errgroup.Group.Wait` returns: when every start
function has returned (`none` when some start function never returns). -/
def allDoneTime (starts : List StartBeh) : Option Nat :=
  starts.foldl allDoneStep (some 0)

/-- A cancellation event of the `errgroup`-derived context:
`(time, priority, cause)`.  Priority orders simultaneous events: the
internal goroutine-error cancellation (0) fires inside the erroring
goroutine before anything else can observe that instant, the propagated
parent cancellation (1) precedes the `cancel(g.err)` call that
`errgroup.Wait` makes after all goroutines are done (2). -/
abbrev RunEvent := Nat × Nat × GoError

/-- All cancellation events of the derived context in a run-phase schedule:
the first goroutine error (cause = that error), the parent cancellation
(cause propagated from the parent), and — only when no goroutine errs —
the `cancel(nil)` performed by `errgroup.Wait` once all goroutines have
returned (cause `context.Canceled`). -/
def runEvents (starts : List StartBeh) (ctxc : CtxCancel) : List RunEvent :=
  (match firstErrEvent starts with
   | some (t, e) => [(t, 0, e)]
   | none => []) ++
  (match ctxc with
   | some (t, c) => [(t, 1, c)]
   | none => []) ++
  (match firstErrEvent starts, allDoneTime starts with
   | none, some t => [(t, 2, GoError.canceled)]
   | _, _ => [])

/-- Of two events, the one that fires first (lexicographically by time then
priority; the incumbent wins ties of both). -/
def earlier (best ev : RunEvent) : RunEvent :=
  if ev.1 < best.1 || (ev.1 = best.1 && ev.2.1 < best.2.1) then ev else best

/-- The earliest event of a schedule. -/
def minEvent : List RunEvent → Option RunEvent
  | [] => none
  | ev :: evs => some (evs.foldl earlier ev)

/-- `Group.wait`: launch all start functions in an `errgroup` derived from
the caller's context, `select` on the all-done channel and the derived
context's done channel, then return `context.Cause(ctx)` unless it matches
`context.Canceled` under `errors.Is`.  Result: `none` when the select never
fires (no event ever occurs); `some r` when it fires and the run phase
yields the error value `r`.  The cause observed is that of the earliest
cancellation event of the derived context. -/
def wait (starts : List StartBeh) (ctxc : CtxCancel) : Option (Option GoError) :=
  match minEvent (runEvents starts ctxc) with
  | none => none
  | some (_, _, cause) => some (if cause.is .canceled then none else some cause)

example : wait [some (0, none)] none = some none := by decide
example : wait [some (0, some (.mk 3))] none = some (some (.mk 3)) := by decide
example : wait [none] (some (2, .deadlineExceeded)) = some (some .deadlineExceeded) := by decide
example : wait [none] (some (2, .canceled)) = some none := by decide
example : wait [none] none = none := by decide

/-! ## The group -/

/-- `ShutdownFn func(ctx context.Context) error`, abstracted by the error
value it returns as a function of the context it receives. -/
abbrev ShutdownFn := Ctx → Option GoError

/-- `type Group struct { cfg Config; startFns []StartFn;
shutdownFns []ShutdownFn }` (the mutex only guards `Add` and has no
sequential content). -/
structure Group where
  cfg : Config
  startFns : List StartBeh
  shutdownFns : List ShutdownFn

/-- `func New(cfg Config) *Group` — empty registration lists. -/
def New (cfg : Config) : Group :=
  { cfg := cfg, startFns := [], shutdownFns := [] }

/-- `func (r *Group) Add(start StartFn, shutdown ShutdownFn)` — appends to
both lists. -/
def Group.Add (g : Group) (start : StartBeh) (sd : ShutdownFn) : Group :=
  { g with
    startFns := g.startFns ++ [start],
    shutdownFns := g.shutdownFns ++ [sd] }

/-- The context built at the top of `Group.shutdown`:
`context.WithCancel(context.Background())`, then wrapped by
`context.WithTimeout(ctx, r.cfg.ShutdownTimeout)` when the timeout is
positive. -/
def shutdownCtx (cfg : Config) (now : Int) : Ctx :=
  let ctx := Ctx.withCancel Ctx.background
  if cfg.ShutdownTimeout > 0 then Ctx.withDeadline ctx (now + cfg.ShutdownTimeout)
  else ctx

/-- The per-function results of the shutdown phase: every registered
shutdown function is called (via `g.Go`) with the one shared shutdown
context. -/
def Group.shutdownResults (g : Group) (now : Int) : List (Option GoError) :=
  g.shutdownFns.map (fun f => f (shutdownCtx g.cfg now))

/-- One step of `errOnce`: the first recorded error is kept, later ones
are dropped. -/
def errgroupStep (acc : Option GoError) (r : Option GoError) : Option GoError :=
  match acc with
  | some e => some e
  | none => r

/-- `errgroup.Group.Wait` over a bare `errgroup.Group`: waits for all
functions and returns the first non-nil error recorded by `errOnce`
(completion order, modelled as registration order). -/
def errgroupWait (results : List (Option GoError)) : Option GoError :=
  results.foldl errgroupStep none

/-- `func (r *Group) shutdown() error` — run every shutdown function with
the shared derived context and return the `errgroup` result. -/
def Group.shutdown (g : Group) (now : Int) : Option GoError :=
  errgroupWait (g.shutdownResults now)

/-- `func (r *Group) Wait(ctx context.Context) error`: run phase, then
shutdown phase, then `errors.Join(shutdownError, err)`.  Result `none` when
the run phase never unblocks (`Wait` never returns); `some v` when `Wait`
returns the error value `v`. -/
def Group.Wait (g : Group) (ctxc : CtxCancel) (now : Int) :
    Option (Option GoError) :=
  match wait g.startFns ctxc with
  | none => none
  | some runErr => some (errJoin (g.shutdown now) runErr)

example :
    Group.Wait ⟨DefaultConfig, [some (0, some (.mk 3))], [fun _ => none]⟩ none 0
      = some (some (.join1 (.mk 3))) := by decide
example :
    Group.Wait ⟨DefaultConfig, [some (0, none)], [fun _ => some (.mk 4)]⟩ none 0
      = some (some (.join1 (.mk 4))) := by decide
example : Group.Wait (New DefaultConfig) none 0 = some none := by decide

/-- `addAll g ps` registers the pairs of `ps` in order, as a caller looping
over `Group.Add` would. -/
def addAll (g : Group) (ps : List (StartBeh × ShutdownFn)) : Group :=
  ps.foldl (fun g₁ p => g₁.Add p.1 p.2) g

/-! ## Helper lemmas (shared) -/

theorem GoError.is_self (e : GoError) : e.is e = true := by
  unfold GoError.is
  simp

theorem errJoin_some_left (s : GoError) (r : Option GoError) :
    ∃ v, errJoin (some s) r = some v ∧ v.is s = true := by
  cases r with
  | none =>
    exact ⟨.join1 s, rfl, by unfold GoError.is; simp [GoError.is_self]⟩
  | some e =>
    exact ⟨.join2 s e, rfl, by unfold GoError.is; simp [GoError.is_self]⟩

theorem errJoin_some_right (r : Option GoError) (e : GoError) :
    ∃ v, errJoin r (some e) = some v ∧ v.is e = true := by
  cases r with
  | none =>
    exact ⟨.join1 e, rfl, by unfold GoError.is; simp [GoError.is_self]⟩
  | some s =>
    exact ⟨.join2 s e, rfl, by unfold GoError.is; simp [GoError.is_self]⟩

theorem addAll_startFns (g : Group) (ps : List (StartBeh × ShutdownFn)) :
    (addAll g ps).startFns = g.startFns ++ ps.map Prod.fst := by
  induction ps generalizing g with
  | nil => simp [addAll]
  | cons p ps ih =>
    simp only [addAll, List.foldl_cons, List.map_cons]
    rw [show List.foldl (fun g₁ p => Group.Add g₁ p.1 p.2) (g.Add p.1 p.2) ps
          = addAll (g.Add p.1 p.2) ps from rfl, ih]
    simp [Group.Add]

theorem errgroupWait_some (a : GoError) (res : List (Option GoError)) :
    errgroupWait (some a :: res) = some a := by
  have aux : ∀ (l : List (Option GoError)),
      List.foldl errgroupStep (some a) l = some a := by
    intro l
    induction l with
    | nil => rfl
    | cons r l ih => simpa [errgroupStep] using ih
  simpa [errgroupWait] using aux res

theorem errgroupWait_none (res : List (Option GoError)) :
    errgroupWait (none :: res) = errgroupWait res := rfl

theorem allDoneTime_isSome (starts : List StartBeh)
    (h : starts.all Option.isSome = true) : (allDoneTime starts).isSome = true := by
  have aux : ∀ (l : List StartBeh) (m : Nat), l.all Option.isSome = true →
      (List.foldl allDoneStep (some m) l).isSome = true := by
    intro l
    induction l with
    | nil => intro m _; rfl
    | cons b l ih =>
      intro m hb
      simp only [List.all_cons, Bool.and_eq_true] at hb
      cases b with
      | none => simp at hb
      | some tb => exact ih (max m tb.1) hb.2
  exact aux starts 0 h

theorem addAll_shutdownFns (g : Group) (ps : List (StartBeh × ShutdownFn)) :
    (addAll g ps).shutdownFns = g.shutdownFns ++ ps.map Prod.snd := by
  induction ps generalizing g with
  | nil => simp [addAll]
  | cons p ps ih =>
    simp only [addAll, List.foldl_cons, List.map_cons]
    rw [show List.foldl (fun g₁ p => Group.Add g₁ p.1 p.2) (g.Add p.1 p.2) ps
          = addAll (g.Add p.1 p.2) ps from rfl, ih]
    simp [Group.Add]

/-! ## Claim theorems -/

/-- Claim C8: the configuration has exactly one tunable, `shutdownTimeout`,
and the default configuration's `ShutdownTimeout` equals 5 seconds
(`5 * time.Second`). -/
theorem default_config_timeout_is_five_seconds :
    DefaultConfig.ShutdownTimeout = 5 * timeSecond ∧
      DefaultConfig = { ShutdownTimeout := 5 * 1000000000 } := by
  constructor <;> rfl

/-- Claim C9: `Add` only appends — after any sequence of `Add` calls on a
group created by `New`, the start list is exactly the registered start
operations in order and the shutdown list exactly the paired shutdown
operations in order (hence equal lengths and positionwise pairing), and a
single `Add` extends both lists at the end, removing or replacing
nothing. -/
theorem add_only_appends (cfg : Config) (ps : List (StartBeh × ShutdownFn)) :
    (addAll (New cfg) ps).startFns.length
        = (addAll (New cfg) ps).shutdownFns.length ∧
      (addAll (New cfg) ps).startFns = ps.map Prod.fst ∧
      (addAll (New cfg) ps).shutdownFns = ps.map Prod.snd ∧
      ∀ (g : Group) (s : StartBeh) (sd : ShutdownFn),
        (g.Add s sd).startFns = g.startFns ++ [s] ∧
          (g.Add s sd).shutdownFns = g.shutdownFns ++ [sd] := by
  refine ⟨?_, ?_, ?_, ?_⟩
  · rw [addAll_startFns, addAll_shutdownFns]
    simp [New]
  · rw [addAll_startFns]; simp [New]
  · rw [addAll_shutdownFns]; simp [New]
  · intro g s sd
    exact ⟨rfl, rfl⟩

/-- Claim C5: the shutdown phase derives a fresh context rooted at
`context.Background()` (independent of the run-phase context, which is not
even an input of `shutdown`), whose deadline is `now + shutdownTimeout`
when the timeout is positive and absent otherwise, and this one context is
what every shutdown operation receives. -/
theorem shutdown_context_fresh_and_shared (g : Group) (now : Int) :
    ∃ c : Ctx,
      c.root = Ctx.background ∧
        c.deadline = (if g.cfg.ShutdownTimeout > 0
          then some (now + g.cfg.ShutdownTimeout) else none) ∧
        g.shutdownResults now = g.shutdownFns.map (fun f => f c) := by
  refine ⟨shutdownCtx g.cfg now, ?_, ?_, rfl⟩
  · unfold shutdownCtx
    split <;> rfl
  · unfold shutdownCtx
    split <;> simp_all [Ctx.deadline]

/-- Claim C6: every registered shutdown operation is invoked exactly once
per `Wait` call — the shutdown phase produces one result per registered
operation, the i-th result being the i-th registered operation applied to
the shared shutdown context (so no operation is skipped after an earlier
failure), and the phase's value is computed from the full result list with
no early exit. -/
theorem shutdown_invokes_every_fn_once (g : Group) (now : Int) :
    (g.shutdownResults now).length = g.shutdownFns.length ∧
      (∀ i : Fin g.shutdownFns.length,
        (g.shutdownResults now)[i.1]?
          = some (g.shutdownFns.get i (shutdownCtx g.cfg now))) ∧
      g.shutdown now = errgroupWait (g.shutdownResults now) := by
  refine ⟨by simp [Group.shutdownResults], ?_, rfl⟩
  intro i
  simp [Group.shutdownResults, List.getElem?_map, List.getElem?_eq_getElem i.2]

/-- Claim C7: when the run phase unblocks with result `r`, `Wait` returns
the combination `errors.Join(shutdown-phase result, r)`, which is nil
exactly when both are nil, and when either phase contributed a non-nil
error that error is identifiable (via `errors.Is`) as a cause of the value
`Wait` returns. -/
theorem wait_joins_both_phases (g : Group) (ctxc : CtxCancel) (now : Int)
    (r : Option GoError) (h : wait g.startFns ctxc = some r) :
    g.Wait ctxc now = some (errJoin (g.shutdown now) r) ∧
      (errJoin (g.shutdown now) r = none ↔ (g.shutdown now = none ∧ r = none)) ∧
      (∀ s, g.shutdown now = some s →
        ∃ v, g.Wait ctxc now = some (some v) ∧ v.is s = true) ∧
      (∀ e, r = some e →
        ∃ v, g.Wait ctxc now = some (some v) ∧ v.is e = true) := by
  have hW : g.Wait ctxc now = some (errJoin (g.shutdown now) r) := by
    unfold Group.Wait
    rw [h]
  refine ⟨hW, ?_, ?_, ?_⟩
  · cases g.shutdown now <;> cases r <;> simp [errJoin]
  · intro s hs
    obtain ⟨v, hv, hvis⟩ := errJoin_some_left s r
    exact ⟨v, by rw [hW, hs, hv], hvis⟩
  · intro e he
    obtain ⟨v, hv, hvis⟩ := errJoin_some_right (g.shutdown now) e
    exact ⟨v, by rw [hW, he, hv], hvis⟩

/-- Claim C7 witness: a group whose single start operation fails with
`mk 2` and whose single shutdown operation fails with `mk 1`; the shutdown
error is identity-checkable in `Wait`'s return value. -/
theorem wait_joins_both_phases_witness :
    ∃ v,
      Group.Wait ⟨DefaultConfig, [some (0, some (.mk 2))], [fun _ => some (.mk 1)]⟩
          none 0 = some (some v) ∧ v.is (.mk 1) = true :=
  (wait_joins_both_phases
      ⟨DefaultConfig, [some (0, some (.mk 2))], [fun _ => some (.mk 1)]⟩
      none 0 (some (.mk 2)) (by decide)).2.2.1 (.mk 1) (by decide)

/-- Claim C10 counterexample: on a group with zero registered entries but a
supplied context that has already ended at time 0 with cause
`context.DeadlineExceeded`, `Wait` returns that cause, not nil. -/
theorem wait_empty_group_not_always_nil :
    Group.Wait (New DefaultConfig) (some (0, GoError.deadlineExceeded)) 0
        = some (some (.join1 .deadlineExceeded)) ∧
      Group.Wait (New DefaultConfig) (some (0, GoError.deadlineExceeded)) 0
        ≠ some none := by
  exact ⟨by decide, by decide⟩

/-- Claim C10 amended: calling `Wait` on a group with zero registered
entries returns nil, provided the supplied context has not already ended
with a non-cancellation cause at the very moment of the call: it is never
canceled, or is canceled only after time 0, or its cause matches plain
cancellation. -/
theorem wait_empty_group_nil (cfg : Config) (now : Int) (ctxc : CtxCancel)
    (h : match ctxc with
         | none => True
         | some (t, c) => 0 < t ∨ c.is .canceled = true) :
    Group.Wait (New cfg) ctxc now = some none := by
  cases ctxc with
  | none =>
    simp [Group.Wait, wait, runEvents, firstErrEvent, allDoneTime, minEvent,
      New, Group.shutdown, Group.shutdownResults, errgroupWait, errJoin,
      GoError.is]
  | some tc =>
    obtain ⟨t, c⟩ := tc
    by_cases ht : 0 < t
    · simp [Group.Wait, wait, runEvents, firstErrEvent, allDoneTime, minEvent,
        earlier, New, Group.shutdown, Group.shutdownResults, errgroupWait,
        errJoin, GoError.is, ht]
    · have ht0 : t = 0 := by omega
      subst ht0
      have hc : c.is .canceled = true := by
        rcases h with h | h
        · omega
        · exact h
      simp [Group.Wait, wait, runEvents, firstErrEvent, allDoneTime, minEvent,
        earlier, New, Group.shutdown, Group.shutdownResults, errgroupWait,
        errJoin, hc]

/-- Claim C10 amended, witness: an empty group whose context is canceled at
time 1 with a deadline cause still yields a nil `Wait` result. -/
theorem wait_empty_group_nil_witness :
    Group.Wait (New DefaultConfig) (some (1, GoError.deadlineExceeded)) 0
      = some none :=
  wait_empty_group_nil DefaultConfig 0 (some (1, GoError.deadlineExceeded))
    (Or.inl (by decide))

/-- Claim C2 counterexample: a group whose only start operation returns nil
at time 0, with a context that is never canceled — the run phase ends (with
a nil result) although no start operation returned a non-nil error and the
context was never canceled nor reached a deadline. -/
theorem run_phase_ends_when_all_nil :
    wait [some (0, none)] none = some none ∧
      wait [some (0, none)] none ≠ none :=
  ⟨by decide, by decide⟩

/-- Claim C2 amended: the wait step terminates exactly when some start
operation returns a non-nil error, or the supplied context is eventually
canceled, or every start operation returns; in particular when all of them
return nil and the context is never canceled it ends with a nil run-phase
result. -/
theorem run_phase_termination (starts : List StartBeh) (ctxc : CtxCancel) :
    ((wait starts ctxc).isSome = true ↔
      ((firstErrEvent starts).isSome = true ∨ ctxc.isSome = true ∨
        (allDoneTime starts).isSome = true)) ∧
      (starts.all Option.isSome = true → firstErrEvent starts = none →
        ctxc = none → wait starts ctxc = some none) := by
  constructor
  · rcases hfe : firstErrEvent starts with _ | ⟨tE, e⟩ <;>
      rcases hctx : ctxc with _ | ⟨tP, c⟩ <;>
      rcases had : allDoneTime starts with _ | td <;>
      simp [wait, runEvents, hfe, had, minEvent]
  · intro hall hfe hctx
    have had := allDoneTime_isSome starts hall
    rcases had' : allDoneTime starts with _ | td
    · rw [had'] at had
      simp at had
    · subst hctx
      simp [wait, runEvents, hfe, had', minEvent, GoError.is]

/-- Claim C2 amended, witness: two start operations returning nil at times
2 and 3 with no external cancellation — the run phase ends with a nil
result. -/
theorem run_phase_termination_witness :
    wait [some (2, none), some (3, none)] none = some none :=
  (run_phase_termination [some (2, none), some (3, none)] none).2
    (by decide) (by decide) rfl

/-- Claim C3 counterexample: the single start operation returns nil at time
0 and the supplied context ends at time 1 with cause
`context.DeadlineExceeded` — the context ended before any start operation
failed (none did), yet the run-phase result is nil and `Wait` returns nil,
so the context's cause never becomes the run-phase result. -/
theorem ctx_cause_not_always_surfaced :
    wait [some (0, none)] (some (1, GoError.deadlineExceeded)) = some none ∧
      Group.Wait ⟨DefaultConfig, [some (0, none)], []⟩
          (some (1, GoError.deadlineExceeded)) 0 = some none :=
  ⟨by decide, by decide⟩

/-- Claim C3 amended: when the supplied context ends before any start
operation fails *and before all start operations have returned*, the
run-phase result is nil if the context's cause matches plain cancellation,
and otherwise the cause becomes the run-phase result and is identifiable as
a cause of `Wait`'s return value. -/
theorem ctx_cause_becomes_run_error (g : Group) (now : Int) (t : Nat)
    (c : GoError)
    (hE : ∀ tE e, firstErrEvent g.startFns = some (tE, e) → t < tE)
    (hD : ∀ td, allDoneTime g.startFns = some td → t ≤ td) :
    wait g.startFns (some (t, c)) =
        some (if c.is .canceled then none else some c) ∧
      (c.is .canceled = false →
        ∃ v, g.Wait (some (t, c)) now = some (some v) ∧ v.is c = true) := by
  have hwait : wait g.startFns (some (t, c)) =
      some (if c.is .canceled then none else some c) := by
    rcases hfe : firstErrEvent g.startFns with _ | ⟨tE, e⟩
    · rcases had : allDoneTime g.startFns with _ | td
      · simp [wait, runEvents, hfe, had, minEvent]
      · have htd := hD td had
        have h1 : ¬td < t := by omega
        simp [wait, runEvents, hfe, had, minEvent, earlier, h1]
    · have htE := hE tE e hfe
      simp [wait, runEvents, hfe, minEvent, earlier, htE]
  refine ⟨hwait, ?_⟩
  intro hc
  obtain ⟨v, hv, hvis⟩ := errJoin_some_right (g.shutdown now) c
  refine ⟨v, ?_, hvis⟩
  simp only [Group.Wait, hwait, hc]
  simp [hv]

/-- Claim C3 amended, witness: one never-returning start operation and a
context that ends at time 2 with a deadline cause; the cause is a cause of
`Wait`'s return value. -/
theorem ctx_cause_becomes_run_error_witness :
    ∃ v,
      Group.Wait ⟨DefaultConfig, [none], []⟩
          (some (2, GoError.deadlineExceeded)) 0 = some (some v) ∧
        v.is GoError.deadlineExceeded = true :=
  (ctx_cause_becomes_run_error ⟨DefaultConfig, [none], []⟩ 0 2
      GoError.deadlineExceeded
      (fun tE e h => by simp [firstErrEvent, errStep] at h)
      (fun td h => by simp [allDoneTime, allDoneStep] at h)).2 (by decide)

/-- Claim C4 counterexample: the single start operation returns the non-nil
error `context.Canceled` — `Wait` returns nil, so no aggregate carries that
start error as a cause. -/
theorem start_canceled_error_dropped :
    Group.Wait ⟨DefaultConfig, [some (0, some .canceled)], [fun _ => none]⟩
      none 0 = some none := by
  decide

/-- Claim C4 amended: if a start operation returns a non-nil error that
wins the race (it is the first error among the start operations and not
later than any cancellation of the supplied context), then when that error
does not match plain cancellation under `errors.Is`, `Wait` returns a
non-nil value with that exact error identifiable as a cause; when it is or
wraps plain cancellation, the run-phase result is nil instead. -/
theorem start_error_becomes_cause (g : Group) (ctxc : CtxCancel) (now : Int)
    (tE : Nat) (e : GoError)
    (hfe : firstErrEvent g.startFns = some (tE, e))
    (hP : ∀ tP c, ctxc = some (tP, c) → tE ≤ tP) :
    (e.is .canceled = false →
      ∃ v, g.Wait ctxc now = some (some v) ∧ v.is e = true) ∧
      (e.is .canceled = true → wait g.startFns ctxc = some none) := by
  have hwait : wait g.startFns ctxc =
      some (if e.is .canceled then none else some e) := by
    cases ctxc with
    | none => simp [wait, runEvents, hfe, minEvent]
    | some tc =>
      obtain ⟨tP, c⟩ := tc
      have h1 := hP tP c rfl
      have h2 : ¬tP < tE := by omega
      simp [wait, runEvents, hfe, minEvent, earlier, h2]
  constructor
  · intro hc
    obtain ⟨v, hv, hvis⟩ := errJoin_some_right (g.shutdown now) e
    refine ⟨v, ?_, hvis⟩
    simp only [Group.Wait, hwait, hc]
    simp [hv]
  · intro hc
    rw [hwait, hc]
    simp

/-- Claim C4 amended, witness: a start operation failing with the ordinary
error `mk 7` at time 0 and no external cancellation; `Wait` returns a
non-nil value in which `mk 7` is identifiable as a cause. -/
theorem start_error_becomes_cause_witness :
    ∃ v,
      Group.Wait ⟨DefaultConfig, [some (0, some (.mk 7))], [fun _ => none]⟩
          none 0 = some (some v) ∧ v.is (GoError.mk 7) = true :=
  (start_error_becomes_cause
      ⟨DefaultConfig, [some (0, some (.mk 7))], [fun _ => none]⟩
      none 0 0 (GoError.mk 7) (by decide) (fun tP c h => by simp at h)).1
    (by decide)

/-- Claim C1 counterexample: two shutdown operations return the distinct
non-nil errors `mk 1` and `mk 2`; the value `Wait` returns carries only
`mk 1` and `mk 2` is not identifiable as a cause of it. -/
theorem shutdown_second_error_dropped :
    Group.Wait
        ⟨DefaultConfig, [], [fun _ => some (.mk 1), fun _ => some (.mk 2)]⟩
        none 0 = some (some (.join1 (.mk 1))) ∧
      (GoError.join1 (.mk 1)).is (.mk 2) = false :=
  ⟨by decide, by decide⟩

/-- Claim C1 amended: the shutdown phase keeps only the first non-nil
shutdown error in completion order (later errors are dropped by the
`errOnce` of `errgroup`), and that single retained error, when present, is
identifiable as a cause of the value `Wait` returns. -/
theorem shutdown_first_error_kept (g : Group) (ctxc : CtxCancel) (now : Int)
    (s : GoError) :
    (∀ (res : List (Option GoError)) (a : GoError),
        errgroupWait (some a :: res) = some a) ∧
      (∀ res : List (Option GoError),
        errgroupWait (none :: res) = errgroupWait res) ∧
      (∀ r : Option GoError, wait g.startFns ctxc = some r →
        g.shutdown now = some s →
        ∃ v, g.Wait ctxc now = some (some v) ∧ v.is s = true) := by
  refine ⟨fun res a => errgroupWait_some a res,
    fun res => errgroupWait_none res, ?_⟩
  intro r hr hs
  obtain ⟨v, hv, hvis⟩ := errJoin_some_left s r
  refine ⟨v, ?_, hvis⟩
  simp only [Group.Wait, hr, hs]
  simp [hv]

/-- Claim C1 amended, witness: two failing shutdown operations; the first
recorded error `mk 5` is identifiable as a cause of `Wait`'s value. -/
theorem shutdown_first_error_kept_witness :
    ∃ v,
      Group.Wait
          ⟨DefaultConfig, [], [fun _ => some (.mk 5), fun _ => some (.mk 6)]⟩
          none 0 = some (some v) ∧ v.is (GoError.mk 5) = true :=
  (shutdown_first_error_kept
      ⟨DefaultConfig, [], [fun _ => some (.mk 5), fun _ => some (.mk 6)]⟩
      none 0 (GoError.mk 5)).2.2 none (by decide) (by decide)

end Gracegroup
